import Mathlib

/-!
Verification of the klaw-gateway computer-use core against its
natural-language specification.

The development shallowly embeds the relevant JavaScript modules:

* `src/electron/computer-use/vault.cjs` — the Security Vault (safety gate):
  `checkApp`, `checkUrl`, `checkText`, `checkConfirmation`, `checkAction`,
  the glob compiler `patternToRegex`, and the default policy `DEFAULT_VAULT`.
* `src/electron/computer-use/vision.js` — the oracle-response parser
  `parseAction` (with `JSON.parse` abstracted as an oracle).
* `src/electron/computer-use/agent.cjs` — the `ComputerUseAgent.run` loop,
  embedded as a fuel-indexed state machine over an explicit environment of
  perception/decision/primitive outcomes.
* `humanMove` from the human-mouse motion module bundled in
  `src/electron/browser-agent/messenger.cjs`, with the random draws made
  explicit and JS numbers modelled as rationals.

JS strings are modelled as Lean `String` / `List Char`; `toLowerCase` is
modelled by `Char.toLower` (the inputs of interest are ASCII); JS falsy
checks on strings are modelled by emptiness tests.
-/

namespace Klaw

/-! ## JS-style character and string helpers -/

/-- Characters matched by the JS regex class `\s` (ASCII part). -/
def isJsSpace (c : Char) : Bool :=
  c = ' ' || c = '\t' || c = '\n' || c = '\r' || c = '\x0b' || c = '\x0c'

/-- Model of JS `toLowerCase` on a character list (ASCII-faithful). -/
def lowerL (cs : List Char) : List Char := cs.map Char.toLower

/-- Model of JS `String.prototype.includes`: `containsSub needle hay` is
true iff `needle` occurs as a contiguous substring of `hay`. -/
def containsSub : List Char → List Char → Bool
  | needle, [] => needle.isEmpty
  | needle, c :: t => needle.isPrefixOf (c :: t) || containsSub needle t

/-- JS truthiness of an optional string value (absent or `""` is falsy). -/
def strTruthy : Option String → Bool
  | none => false
  | some s => !(s = "")

/-- Model of the JS idiom `v || dflt` on an optional string field. -/
def strOrDefault (o : Option String) (dflt : String) : String :=
  match o with
  | none => dflt
  | some s => if s = "" then dflt else s

/-! ## Security Vault (`vault.cjs`)

The vault configuration is the JSON record stored in `~/.korvus/vault.json`;
the check functions reload it on every call, so here each check takes the
loaded configuration as an explicit argument (the functions are pure in it).
-/

/-- Result record `{ blocked, reason }` returned by the vault checks. -/
structure CheckResult where
  blocked : Bool
  reason : String
  deriving Repr, DecidableEq

/-- The vault configuration fields used by the checks
(`blockedApps`, `blockedSites`, `blockedKeywords`, `safetyMode`,
`requireConfirmation`). -/
structure VaultConfig where
  blockedApps : List String
  blockedSites : List String
  blockedKeywords : List String
  safetyMode : String
  requireConfirmation : List String
  deriving Repr, DecidableEq

/-- `DEFAULT_VAULT` from `vault.cjs` (the fields the checks consult). -/
def DEFAULT_VAULT : VaultConfig where
  blockedApps :=
    ["KeePass", "KeePassXC", "1Password", "Bitwarden", "LastPass",
     "keepass", "keepassxc", "1password", "bitwarden", "lastpass"]
  blockedSites :=
    ["*.bank.*", "*.banking.*", "paypal.com", "razorpay.com",
     "stripe.com", "pay.google.com", "wallet.google.com",
     "onlinebanking.*", "netbanking.*",
     "onlinesbi.sbi", "hdfcbank.com", "icicibank.com", "axisbank.com",
     "kotak.com", "pnbindia.in", "bankofindia.co.in"]
  blockedKeywords :=
    ["password", "passwd", "secret", "cvv", "pin", "otp",
     "credit card", "debit card", "card number", "expiry",
     "ssn", "social security", "aadhaar", "pan card"]
  safetyMode := "ask-before"
  requireConfirmation :=
    ["send", "submit", "post", "publish", "delet", "remov",
     "pay", "purchase", "buy", "checkout", "transfer"]

/-- `checkApp(processName)`: blocked iff the lowered process name equals or
contains (as substring) a lowered entry of `blockedApps`; the empty name is
passed through unblocked (`if (!processName)`). -/
def checkApp (vault : VaultConfig) (processName : String) : CheckResult :=
  if processName = "" then CheckResult.mk false ""
  else
    let lower := lowerL processName.toList
    if vault.blockedApps.any
        (fun b => lower = lowerL b.toList || containsSub (lowerL b.toList) lower) then
      CheckResult.mk true
        ("App \"" ++ processName ++
         "\" is blocked by Security Vault (password manager / sensitive app)")
    else CheckResult.mk false ""

/-! ### Glob pattern compilation (`patternToRegex`)

`patternToRegex` escapes every regex metacharacter except `*`, turns each
`*` into `.*`, and builds `new RegExp(withWildcard, 'i')` — note: with no
anchors and no `s` flag, so the regex `.` never matches a line terminator
(`\n`, `\r`, U+2028, U+2029).  `regex.test(s)` therefore succeeds iff the
segments of the pattern obtained by splitting on `*` occur in `s`, in
order, case insensitively, starting anywhere, with the text BETWEEN
consecutive segments free of line terminators (the text before the first
segment and after the last is unconstrained, since `test` merely searches
for a match).  `segsAt`/`segsMatch` implement exactly that semantics by an
explicitly existential search over start positions and gap lengths, which
coincides with the backtracking regex semantics. -/

/-- Split a pattern at each `*` (the wildcard); `splitStar` never returns
`[]` and keeps empty segments, mirroring how `escaped.replace(/\*/g,'.*')`
leaves literal runs between consecutive `.*`. -/
def splitStar : List Char → List (List Char)
  | [] => [[]]
  | c :: t =>
    if c = '*' then [] :: splitStar t
    else
      match splitStar t with
      | [] => [[c]]
      | s :: rest => (c :: s) :: rest

/-- The ECMAScript line terminators, which the regex `.` never matches
(no `s` flag is passed to `new RegExp`). -/
def isLineTerm (c : Char) : Bool :=
  c = '\n' || c = '\r' || c = '\u2028' || c = '\u2029'

/-- All suffixes of `cs` reachable by removing a prefix that contains no
line terminator: the possible remainders after a `.*` gap. -/
def cleanDrop : List Char → List (List Char)
  | [] => [[]]
  | c :: t => (c :: t) :: (if isLineTerm c then [] else cleanDrop t)

/-- Matching of `s0 .* s1 .* ... .* sk` anchored at the current position:
the head segment must start here, and each later segment follows after a
line-terminator-free gap (searched exhaustively via `cleanDrop`). -/
def segsAt : List (List Char) → List Char → Bool
  | [], _ => true
  | s :: rest, cs =>
    s.isPrefixOf cs && (cleanDrop (cs.drop s.length)).any (fun u => segsAt rest u)

/-- Unanchored matching of the segment list of a compiled glob:
`regex.test` searches every start position. -/
def segsMatch (segs : List (List Char)) (cs : List Char) : Bool :=
  cs.tails.any (fun u => segsAt segs u)

/-- Embedding of `patternToRegex(pattern).test(s)`: the `'i'` flag is
modelled by lowering both sides (`Char.toLower` fixes line terminators). -/
def globTest (pattern : String) (s : List Char) : Bool :=
  segsMatch (splitStar (lowerL pattern.toList)) (lowerL s)

/-- `checkUrl(url)`: blocked iff some `blockedSites` pattern's compiled
regex matches the lowered URL; the empty URL passes unblocked.  The source
lowercases the URL once and the regex carries the `'i'` flag; `globTest`
models both by a single case-fold of each side, so it receives the raw
character list here. -/
def checkUrl (vault : VaultConfig) (url : String) : CheckResult :=
  if url = "" then CheckResult.mk false ""
  else
    if vault.blockedSites.any (fun p => globTest p url.toList) then
      CheckResult.mk true
        ("Website \"" ++ url ++
         "\" is blocked by Security Vault (banking / payment site)")
    else CheckResult.mk false ""

/-! ### Sensitive-text detection (`checkText`)

The two numeric detectors embed the regexes
`\b\d{4}[\s-]?\d{4}[\s-]?\d{4}[\s-]?\d{1,7}\b` (card) and
`\b\d{4}\s?\d{4}\s?\d{4}\b` (Aadhaar).  Both regexes start with `\b\d`, so
the left word-boundary holds iff the preceding character is absent or a
non-word character; `scanMatch` scans all start positions carrying the
previous character.  Optional separators and the 1–7 digit tail are matched
existentially, which coincides with the backtracking regex semantics. -/

/-- JS regex digit class `\d`. -/
def isDigitC (c : Char) : Bool := '0' ≤ c && c ≤ '9'

/-- JS regex word class `\w` (for `\b` boundaries). -/
def isWordC (c : Char) : Bool :=
  isDigitC c || ('a' ≤ c && c ≤ 'z') || ('A' ≤ c && c ≤ 'Z') || c = '_'

/-- Character class `[\s-]` used between card digit groups. -/
def isCardSep (c : Char) : Bool := isJsSpace c || c = '-'

/-- Consume exactly `n` digits. -/
def eatDigits : Nat → List Char → Option (List Char)
  | 0, cs => some cs
  | _ + 1, [] => none
  | n + 1, c :: cs => if isDigitC c then eatDigits n cs else none

/-- A word boundary `\b` after a digit: end of input or a non-word char. -/
def endBoundary : List Char → Bool
  | [] => true
  | c :: _ => !(isWordC c)

/-- Matches `\d{0,n}\b` after at least one digit has been consumed:
either stop at a boundary now or, budget allowing, eat another digit. -/
def tailDigits : Nat → List Char → Bool
  | _, [] => true
  | 0, c :: _ => !(isWordC c)
  | n + 1, c :: cs => if isDigitC c then tailDigits n cs else !(isWordC c)

/-- Both alternatives of an optional one-character class `X?`. -/
def optSepChoices (p : Char → Bool) : List Char → List (List Char)
  | [] => [[]]
  | c :: cs => if p c then [c :: cs, cs] else [c :: cs]

/-- The card regex body matched at the current position. -/
def cardAt (cs : List Char) : Bool :=
  match eatDigits 4 cs with
  | none => false
  | some r1 => (optSepChoices isCardSep r1).any fun r1' =>
      match eatDigits 4 r1' with
      | none => false
      | some r2 => (optSepChoices isCardSep r2).any fun r2' =>
          match eatDigits 4 r2' with
          | none => false
          | some r3 => (optSepChoices isCardSep r3).any fun r3' =>
              match r3' with
              | [] => false
              | c :: rest => isDigitC c && tailDigits 6 rest

/-- The Aadhaar regex body matched at the current position. -/
def aadhaarAt (cs : List Char) : Bool :=
  match eatDigits 4 cs with
  | none => false
  | some r1 => (optSepChoices isJsSpace r1).any fun r1' =>
      match eatDigits 4 r1' with
      | none => false
      | some r2 => (optSepChoices isJsSpace r2).any fun r2' =>
          match eatDigits 4 r2' with
          | none => false
          | some r3 => endBoundary r3

/-- Left word boundary before a digit: start of input or non-word char. -/
def boundaryBefore : Option Char → Bool
  | none => true
  | some c => !(isWordC c)

/-- Scan every start position (tracking the previous character for `\b`). -/
def scanMatch (atM : List Char → Bool) : Option Char → List Char → Bool
  | prev, [] => boundaryBefore prev && atM []
  | prev, c :: t => (boundaryBefore prev && atM (c :: t)) || scanMatch atM (some c) t

/-- Embedding of the card-number regex test on a whole string. -/
def cardMatch (cs : List Char) : Bool := scanMatch cardAt none cs

/-- Embedding of the Aadhaar regex test on a whole string. -/
def aadhaarMatch (cs : List Char) : Bool := scanMatch aadhaarAt none cs

/-- `checkText(text)`: empty text passes; otherwise blocked on the first
lowered `blockedKeywords` substring hit, else on the card regex, else on
the Aadhaar regex (both tested on the original text). -/
def checkText (vault : VaultConfig) (text : String) : CheckResult :=
  if text = "" then CheckResult.mk false ""
  else
    match vault.blockedKeywords.find?
        (fun k => containsSub (lowerL k.toList) (lowerL text.toList)) with
    | some k =>
      CheckResult.mk true
        ("Text contains sensitive keyword \"" ++ k ++ "\" — AI cannot type this")
    | none =>
      if cardMatch text.toList then
        CheckResult.mk true "Text appears to contain a credit/debit card number"
      else if aadhaarMatch text.toList then
        CheckResult.mk true "Text appears to contain an Aadhaar number"
      else CheckResult.mk false ""

/-! ### Confirmation check and the full gate -/

/-- Result record `{ needsConfirmation, reason }` of `checkConfirmation`. -/
structure ConfirmResult where
  needsConfirmation : Bool
  reason : String
  deriving Repr, DecidableEq

/-- The destructive click words hard-coded in `checkConfirmation`. -/
def destructiveWords : List String :=
  ["delete", "remove", "send", "submit", "post", "publish", "pay", "confirm order"]

/-- `checkConfirmation(thought, action, params)` (the `params` argument is
unused by the source body): full-auto never confirms, watch-only always
does, ask-before matches `requireConfirmation` keywords against the lowered
thought and additionally flags destructive click wording. -/
def checkConfirmation (vault : VaultConfig) (thought : String) (action : String) :
    ConfirmResult :=
  if vault.safetyMode = "full-auto" then ConfirmResult.mk false ""
  else if vault.safetyMode = "watch-only" then
    ConfirmResult.mk true "Watch-only mode: all actions need confirmation"
  else
    let thoughtLower := lowerL thought.toList
    match vault.requireConfirmation.find? (fun k => containsSub k.toList thoughtLower) with
    | some k =>
      ConfirmResult.mk true ("Action involves \"" ++ k ++ "\" — confirmation required")
    | none =>
      if action = "click" && !(thought = "") then
        match destructiveWords.find? (fun d => containsSub d.toList thoughtLower) with
        | some d =>
          ConfirmResult.mk true ("Clicking \"" ++ d ++ "\" button — confirmation required")
        | none => ConfirmResult.mk false ""
      else ConfirmResult.mk false ""

/-- The parameter object of an action; absent JSON fields are `none`.
JS numbers for coordinates and amounts are modelled as `Int` (presence is
all the embedded checks inspect). The `window` action's `params.action`
field is modelled as `winAction`. -/
structure Params where
  x : Option Int := none
  y : Option Int := none
  x1 : Option Int := none
  y1 : Option Int := none
  x2 : Option Int := none
  y2 : Option Int := none
  text : Option String := none
  combo : Option String := none
  name : Option String := none
  url : Option String := none
  direction : Option String := none
  amount : Option Int := none
  button : Option String := none
  winAction : Option String := none
  ms : Option Int := none
  summary : Option String := none
  message : Option String := none
  delayMs : Option Int := none
  deriving Repr, DecidableEq

/-- A decision record `{ thought, action, params }` as produced by the
oracle-response parser and consumed by the loop and the gate. -/
structure Decision where
  thought : String
  action : String
  params : Params
  deriving Repr, DecidableEq

/-- Result record of `checkAction`. -/
structure GateResult where
  allowed : Bool
  reason : String
  needsConfirmation : Bool
  confirmReason : String
  deriving Repr, DecidableEq

/-- `checkAction(decision, activeWindowProcess)`: app check, then the URL
check for `open_url` with a truthy `params.url`, then the text check for
`type` with a truthy `params.text`, each denial short-circuiting; otherwise
allowed with the confirmation metadata. -/
def checkAction (vault : VaultConfig) (decision : Decision)
    (activeWindowProcess : String) : GateResult :=
  let appCheck := checkApp vault activeWindowProcess
  let urlCheck :=
    if decision.action = "open_url" && strTruthy decision.params.url then
      checkUrl vault (decision.params.url.getD "")
    else CheckResult.mk false ""
  let textCheck :=
    if decision.action = "type" && strTruthy decision.params.text then
      checkText vault (decision.params.text.getD "")
    else CheckResult.mk false ""
  if appCheck.blocked then GateResult.mk false appCheck.reason false ""
  else if urlCheck.blocked then GateResult.mk false urlCheck.reason false ""
  else if textCheck.blocked then GateResult.mk false textCheck.reason false ""
  else
    let confirmCheck := checkConfirmation vault decision.thought decision.action
    GateResult.mk true "" confirmCheck.needsConfirmation confirmCheck.reason

/-! ## Oracle-response parser (`parseAction` in `vision.js`)

`JSON.parse` is abstracted as an oracle `jparse` returning either a parsed
object restricted to the three fields `parseAction` reads (absent or falsy
fields are `none`) or a thrown message. All statements below quantify over
every behaviour of this oracle. -/

/-- The parsed JSON object as inspected by `parseAction`. -/
structure ParsedObj where
  thought : Option String := none
  action : Option String := none
  params : Option Params := none

/-- The `validActions` list of `parseAction`. -/
def validActions : List String :=
  ["click", "drag", "type", "key", "scroll", "open_app", "open_url",
   "find_and_click", "window", "wait", "done", "error"]

/-- JS `trim` (ASCII whitespace model). -/
def trimJs (cs : List Char) : List Char :=
  ((cs.dropWhile isJsSpace).reverse.dropWhile isJsSpace).reverse

/-- JS `String.prototype.trim` on strings. -/
def jsTrimS (s : String) : String := String.mk (trimJs s.toList)

/-- The markdown-fence stripping of `parseAction`: trim, then remove a
leading case-insensitive "```json" plus following whitespace, then a
leading "```" plus following whitespace, then a trailing "```" plus
preceding whitespace. -/
def stripFences (s : String) : List Char :=
  let t0 := trimJs s.toList
  let t1 :=
    if lowerL (t0.take 7) = "```json".toList then (t0.drop 7).dropWhile isJsSpace else t0
  let t2 :=
    if t1.take 3 = "```".toList then (t1.drop 3).dropWhile isJsSpace else t1
  let r := t2.reverse
  if r.take 3 = "```".toList then ((r.drop 3).dropWhile isJsSpace).reverse else t2

/-- The JSON-extraction regex `\x7b[\s\S]*\x7d` (first opening brace,
greedily to the last closing brace), as `text.match(...)`. -/
def extractJson (cs : List Char) : Option (List Char) :=
  let fromBrace := cs.dropWhile (fun c => !(c = '\x7b'))
  match fromBrace with
  | [] => none
  | _ :: _ =>
    let r := fromBrace.reverse.dropWhile (fun c => !(c = '\x7d'))
    match r with
    | [] => none
    | _ :: _ => some r.reverse

/-- `parseAction(responseText)` with `JSON.parse` abstracted as `jparse`. -/
def parseAction (jparse : String → Except String ParsedObj) (responseText : String) :
    Decision :=
  let text := stripFences responseText
  match extractJson text with
  | none =>
    Decision.mk "Failed to parse AI response" "error"
      { message := some ("AI returned non-JSON: " ++ String.mk (text.take 200)) }
  | some jtext =>
    match jparse (String.mk jtext) with
    | Except.error emsg =>
      Decision.mk "JSON parse error" "error"
        { message :=
            some ("Failed to parse JSON: " ++ emsg ++ ". Raw: " ++ String.mk (text.take 200)) }
    | Except.ok parsed =>
      if !(strTruthy parsed.action) then
        Decision.mk (strOrDefault parsed.thought "No action") "error"
          { message := some "AI response missing \"action\" field" }
      else
        let a := parsed.action.getD ""
        if !(validActions.contains a) then
          Decision.mk (strOrDefault parsed.thought "") "error"
            { message := some ("Unknown action: " ++ a) }
        else Decision.mk (strOrDefault parsed.thought "") a (parsed.params.getD {})

/-! ## Agent loop (`ComputerUseAgent.run` in `agent.cjs`)

The loop is embedded as a fuel-indexed recursion over an explicit
environment of outcomes for the awaited calls: `screen.getScreenSize`,
`screen.screenshot` (per cycle and attempt), `vision.analyzeScreen` (per
cycle and attempt) and the `screen.*` primitive behind `executeAction`
(per cycle and attempt).  An `Except.error` models a thrown/rejected call.
`screen.listElements` is best-effort input to the oracle only, so it is
absorbed into the oracle environment; `screen.wait` delays and the emitted
events do not affect the returned result or state and are not modelled.
External `stop()`/`pause()` mutations are outside a single deterministic
run and are fixed to "never requested".  The fuel is `MAX_STEPS`, which
bounds the iteration count because every non-returning iteration
increments `stepCount` by exactly one; the `fuel = 0` branch coincides
with the loop-guard exit.  A trace records every decision handed to
`executeAction`, paired with its 1-based step ordinal. -/

/-- Constant `MAX_STEPS` of `agent.cjs`. -/
def MAX_STEPS : Nat := 25

/-- Constant `MAX_ACTION_RETRIES`. -/
def MAX_ACTION_RETRIES : Nat := 2

/-- Constant `MAX_AI_RETRIES`. -/
def MAX_AI_RETRIES : Nat := 2

/-- Constant `MAX_SCREENSHOT_RETRIES`. -/
def MAX_SCREENSHOT_RETRIES : Nat := 2

/-- The loop's terminal record `{ success, summary, steps }`. -/
structure RunResult where
  success : Bool
  summary : String
  steps : Nat
  deriving Repr, DecidableEq

/-- The mutable fields of `ComputerUseAgent` that `run` touches. -/
structure AgentState where
  running : Bool
  goal : String
  steps : List Decision
  stepCount : Nat
  lastScreenshotHash : String
  sameScreenCount : Nat
  deriving Repr, DecidableEq

/-- Accessor `isRunning()`. -/
def isRunning (st : AgentState) : Bool := st.running

/-- The constructor state of `ComputerUseAgent`. -/
def initialAgentState : AgentState :=
  AgentState.mk false "" [] 0 "" 0

/-- Environment of outcomes of the awaited external calls, indexed by
cycle (current `stepCount` at the top of the cycle) and attempt. -/
structure Env where
  screenSize : Except String Unit
  shot : Nat → Nat → Except String String
  oracle : Nat → Nat → Except String Decision
  prim : Nat → Nat → Except String Unit

/-- The stuck fingerprint: `length + ':' + substring(0,100) +
substring(length-100)` (JS `substring` clamps a negative start to 0). -/
def fingerprint (s : String) : String :=
  let cs := s.toList
  toString cs.length ++ ":" ++ String.mk (cs.take 100) ++
    String.mk (cs.drop (cs.length - 100))

/-- A bounded retry loop (`for attempt = 0..retries`): the first success
wins, otherwise the last attempt's error stands. -/
def firstOk {α : Type} (f : Nat → Except String α) : Nat → Nat → Except String α
  | attempt, 0 => f attempt
  | attempt, n + 1 =>
    match f attempt with
    | Except.ok a => Except.ok a
    | Except.error _ => firstOk f (attempt + 1) n

/-- `executeAction(action, params)`: parameter validation per action kind
(a thrown validation error), then the screen primitive call whose outcome
is `prim` (`find_and_click`'s lookup-then-click pair is collapsed into one
primitive outcome; `wait` only sleeps and cannot fail). -/
def executeAction (prim : Except String Unit) (action : String) (p : Params) :
    Except String Unit :=
  match action with
  | "click" =>
    if p.x.isNone || p.y.isNone then Except.error "Click requires x, y coordinates" else prim
  | "type" => if !(strTruthy p.text) then Except.error "Type requires text" else prim
  | "key" => if !(strTruthy p.combo) then Except.error "Key requires combo" else prim
  | "drag" =>
    if p.x1.isNone || p.y1.isNone || p.x2.isNone || p.y2.isNone then
      Except.error "Drag requires x1, y1, x2, y2 coordinates"
    else prim
  | "scroll" => prim
  | "open_app" => if !(strTruthy p.name) then Except.error "open_app requires name" else prim
  | "open_url" => if !(strTruthy p.url) then Except.error "open_url requires url" else prim
  | "find_and_click" =>
    if !(strTruthy p.text) then Except.error "find_and_click requires text param" else prim
  | "window" =>
    if !(strTruthy p.winAction) then Except.error "window requires action param" else prim
  | "wait" => Except.ok ()
  | _ => Except.error ("Unknown action: " ++ action)

/-- The per-action retry loop: `none` on some success, otherwise the final
attempt's error message (used for the history annotation). -/
def execAttempts (f : Nat → Except String Unit) : Nat → Nat → Option String
  | attempt, 0 =>
    match f attempt with
    | Except.ok _ => none
    | Except.error e => some e
  | attempt, n + 1 =>
    match f attempt with
    | Except.ok _ => none
    | Except.error _ => execAttempts f (attempt + 1) n

/-- Append the failure marker to the most recent step's `thought`. -/
def annotateLast : List Decision → String → List Decision
  | [], _ => []
  | [d], e => [Decision.mk (d.thought ++ " [FAILED: " ++ e ++ "]") d.action d.params]
  | d :: rest, e => d :: annotateLast rest e

/-- The stuck-termination summary. -/
def stuckMsg : String := "Stuck: screen unchanged after 3 attempts. Stopping."

/-- The budget-exceeded summary. -/
def budgetMsg : String :=
  "Stopped: reached maximum " ++ toString MAX_STEPS ++ " steps without completing goal"

/-- The user-stop summary. -/
def stoppedMsg : String := "Agent stopped by user"

/-- What a terminated run yields: the returned `RunResult`, the agent's
final field values, and the trace of decisions handed to `executeAction`. -/
structure LoopOut where
  result : RunResult
  state : AgentState
  trace : List (Nat × Decision)
  deriving Repr, DecidableEq

/-- The code after the `while` loop: budget-exceeded error when
`stepCount >= MAX_STEPS`, otherwise the user-stop return. -/
def postLoop (st : AgentState) (tr : List (Nat × Decision)) : LoopOut :=
  if MAX_STEPS ≤ st.stepCount then
    LoopOut.mk (RunResult.mk false budgetMsg st.stepCount)
      { st with running := false } tr
  else
    LoopOut.mk (RunResult.mk false stoppedMsg st.stepCount)
      { st with running := false } tr

/-- One-to-one embedding of the `while` loop body (see the section header
for the conventions): screenshot retries, stuck detection, oracle retries,
terminal actions, and the execute-with-retries phase.  `Sum.inl` is a
`return` out of `run`; `Sum.inr` reaches the bottom of the body and loops.
Early `return`s that the source performs without clearing `this.running`
keep `running` unchanged here as well. -/
def runCycle (env : Env) (st : AgentState) (tr : List (Nat × Decision)) :
    Sum LoopOut (AgentState × List (Nat × Decision)) :=
  match firstOk (env.shot st.stepCount) 0 MAX_SCREENSHOT_RETRIES with
  | Except.error e =>
    Sum.inl
      (LoopOut.mk (RunResult.mk false ("Screenshot failed: " ++ e) st.stepCount) st tr)
  | Except.ok shotData =>
    if fingerprint shotData = st.lastScreenshotHash ∧ 3 ≤ st.sameScreenCount + 1 then
      Sum.inl
        (LoopOut.mk (RunResult.mk false stuckMsg st.stepCount)
          { st with sameScreenCount := st.sameScreenCount + 1, running := false } tr)
    else
      match firstOk (env.oracle st.stepCount) 0 MAX_AI_RETRIES with
      | Except.error e =>
        Sum.inl
          (LoopOut.mk (RunResult.mk false ("AI analysis failed: " ++ e) st.stepCount)
            (AgentState.mk st.running st.goal st.steps st.stepCount (fingerprint shotData)
              (if fingerprint shotData = st.lastScreenshotHash then
                st.sameScreenCount + 1 else 0))
            tr)
      | Except.ok decision =>
        if decision.action = "done" then
          Sum.inl
            (LoopOut.mk
              (RunResult.mk true (strOrDefault decision.params.summary "Goal completed")
                (st.stepCount + 1))
              (AgentState.mk false st.goal (st.steps ++ [decision]) (st.stepCount + 1)
                (fingerprint shotData)
                (if fingerprint shotData = st.lastScreenshotHash then
                  st.sameScreenCount + 1 else 0))
              tr)
        else if decision.action = "error" then
          Sum.inl
            (LoopOut.mk
              (RunResult.mk false (strOrDefault decision.params.message "Unknown error")
                (st.stepCount + 1))
              (AgentState.mk false st.goal (st.steps ++ [decision]) (st.stepCount + 1)
                (fingerprint shotData)
                (if fingerprint shotData = st.lastScreenshotHash then
                  st.sameScreenCount + 1 else 0))
              tr)
        else
          match execAttempts
              (fun a => executeAction (env.prim st.stepCount a) decision.action
                decision.params)
              0 MAX_ACTION_RETRIES with
          | none =>
            Sum.inr
              (AgentState.mk st.running st.goal (st.steps ++ [decision]) (st.stepCount + 1)
                (fingerprint shotData)
                (if fingerprint shotData = st.lastScreenshotHash then
                  st.sameScreenCount + 1 else 0),
                tr ++ [(st.stepCount + 1, decision)])
          | some e =>
            Sum.inr
              (AgentState.mk st.running st.goal (annotateLast (st.steps ++ [decision]) e)
                (st.stepCount + 1) (fingerprint shotData)
                (if fingerprint shotData = st.lastScreenshotHash then
                  st.sameScreenCount + 1 else 0),
                tr ++ [(st.stepCount + 1, decision)])

/-- The `while (running && stepCount < MAX_STEPS)` loop.  The fuel only
certifies termination: every continuing cycle increments `stepCount`, so
from `runAgent`'s call site (`fuel = MAX_STEPS`, `stepCount = 0`) the
`fuel = 0` case is reached only when the guard is false, where it agrees
with the guard exit (`postLoop` either way). -/
def loopGo (env : Env) : Nat → AgentState → List (Nat × Decision) → LoopOut
  | 0, st, tr => postLoop st tr
  | fuel + 1, st, tr =>
    if !st.running || MAX_STEPS ≤ st.stepCount then postLoop st tr
    else
      match runCycle env st tr with
      | Sum.inl out => out
      | Sum.inr (st', tr') => loopGo env fuel st' tr'

/-- `run(goal)` on an agent whose current fields are `st0`: the two
fail-fast usage throws (`Except.error`), then initialization, then the
`try` block — whose only uncaught-capable call is `screen.getScreenSize`,
its throw landing in the top-level `catch` (clear `running`, return an
error result) — then the loop. -/
def runAgent (env : Env) (st0 : AgentState) (goal : String) : Except String LoopOut :=
  if st0.running then Except.error "Agent already running"
  else if jsTrimS goal = "" then Except.error "No goal provided"
  else
    let st1 := AgentState.mk true (jsTrimS goal) [] 0 "" 0
    match env.screenSize with
    | Except.error e =>
      Except.ok (LoopOut.mk (RunResult.mk false e 0) { st1 with running := false } [])
    | Except.ok _ => Except.ok (loopGo env MAX_STEPS st1 [])

/-! ## Human motion emulator (`humanMove`)

`humanMove(page, toX, toY)` draws: a step count (`randomInt(20,35)`),
four control-point fractions (`randomFloat` in the ranges 0.2–0.5,
0.1–0.4, 0.5–0.8, 0.6–0.9), four integer control-point offsets
(`randomInt(-50,50)` twice, `randomInt(-30,30)` twice) and per-sample
jitter (`randomInt(-2,2)` on each axis).  The draws are made explicit in
`MoveRand`; JS numbers are modelled as rationals.  The emitted samples are
the `page.mouse.move` arguments: one jittered Bezier sample per
`i = 0..steps` followed by the final exact move to the target.  Per-sample
delays do not affect the emitted coordinates and are not modelled. -/

/-- The random draws of one `humanMove` call. -/
structure MoveRand where
  msteps : Nat
  f1x : ℚ
  f1y : ℚ
  f2x : ℚ
  f2y : ℚ
  o1x : ℚ
  o1y : ℚ
  o2x : ℚ
  o2y : ℚ
  jx : Nat → ℚ
  jy : Nat → ℚ

/-- The cubic Bezier formula of `bezier(t, p0, p1, p2, p3)`. -/
def bezierQ (t p0 p1 p2 p3 : ℚ) : ℚ :=
  (1 - t) ^ 3 * p0 + 3 * (1 - t) ^ 2 * t * p1 + 3 * (1 - t) * t ^ 2 * p2 + t ^ 3 * p3

/-- The sequence of coordinates `humanMove` emits. -/
def humanMoveSamples (r : MoveRand) (fromX fromY toX toY : ℚ) : List (ℚ × ℚ) :=
  let cp1x := fromX + (toX - fromX) * r.f1x + r.o1x
  let cp1y := fromY + (toY - fromY) * r.f1y + r.o1y
  let cp2x := fromX + (toX - fromX) * r.f2x + r.o2x
  let cp2y := fromY + (toY - fromY) * r.f2y + r.o2y
  ((List.range (r.msteps + 1)).map fun (i : Nat) =>
    let t : ℚ := (i : ℚ) / (r.msteps : ℚ)
    (bezierQ t fromX cp1x cp2x toX + r.jx i,
     bezierQ t fromY cp1y cp2y toY + r.jy i))
  ++ [(toX, toY)]

/-- Membership in the bounding box of the start and target points, padded
by `pad` on every side. -/
def sampleInPaddedBox (fromX fromY toX toY pad : ℚ) (p : ℚ × ℚ) : Prop :=
  min fromX toX - pad ≤ p.1 ∧ p.1 ≤ max fromX toX + pad ∧
  min fromY toY - pad ≤ p.2 ∧ p.2 ≤ max fromY toY + pad

/-! ## Semantic predicates and concrete instances used by the claims -/

/-- Declarative semantics of a segment regex `s0 .* s1 .* ... .* sk`
matched at the current position: the head segment starts here and each
later segment follows after a gap free of line terminators (which the
regex `.` never matches). -/
def SegsOccFrom : List (List Char) → List Char → Prop
  | [], _ => True
  | s :: rest, cs =>
    ∃ g suf, cs = s ++ g ++ suf ∧ (∀ c ∈ g, isLineTerm c = false) ∧ SegsOccFrom rest suf

/-- Declarative semantics of the unanchored test: the segment sequence
matches starting at some position of the string. -/
def SegsOcc (segs : List (List Char)) (cs : List Char) : Prop :=
  ∃ pre suf, cs = pre ++ suf ∧ SegsOccFrom segs suf

/-- Modelled from the spec: "glob-style `*` wildcard compiled to an
anchored, case-insensitive match" — the whole pattern anchored at both
ends, the `.*` gaps still unable to cross line terminators.  This is the
matcher the claim attributes to the code (the code's `patternToRegex`
produces no anchors); it exists to state that claim. -/
def anchoredSegsMatch : List (List Char) → List Char → Bool
  | [], cs => cs.isEmpty
  | [s], cs => decide (cs = s)
  | s :: s' :: rest, cs =>
    s.isPrefixOf cs &&
      (cleanDrop (cs.drop s.length)).any (fun u => anchoredSegsMatch (s' :: rest) u)

/-- Anchored, case-insensitive whole-string glob match of a pattern. -/
def anchoredGlobTest (pattern : String) (s : List Char) : Bool :=
  anchoredSegsMatch (splitStar (lowerL pattern.toList)) (lowerL s)

/-- The code-side blocked-text disjuncts of `checkText`, named for the
claim statements: a lowered blocked keyword occurs in the lowered text. -/
def keywordHit (vault : VaultConfig) (text : String) : Bool :=
  vault.blockedKeywords.any (fun k => containsSub (lowerL k.toList) (lowerL text.toList))

/-- An environment whose screenshots are constantly the same string and
whose oracle always asks to wait (never `done`/`error`). -/
def envWaitConst : Env :=
  Env.mk (Except.ok ()) (fun _ _ => Except.ok "SHOT")
    (fun _ _ => Except.ok (Decision.mk "thinking" "wait" {})) (fun _ _ => Except.ok ())

/-- An environment whose perception provider throws on every attempt. -/
def envShotFail : Env :=
  Env.mk (Except.ok ()) (fun _ _ => Except.error "boom")
    (fun _ _ => Except.ok (Decision.mk "thinking" "wait" {})) (fun _ _ => Except.ok ())

/-- A decision to open a banking site that `DEFAULT_VAULT` blocks. -/
def decOpenBank : Decision :=
  Decision.mk "open bank" "open_url" { url := some "https://hdfcbank.com" }

/-- An environment whose oracle decides to open a blocked banking URL in
cycle 0 and reports `done` in cycle 1; screenshots differ per cycle. -/
def envGateDemo : Env :=
  Env.mk (Except.ok ()) (fun c _ => Except.ok (toString c))
    (fun c _ =>
      if c = 0 then Except.ok decOpenBank
      else Except.ok (Decision.mk "finished" "done" { summary := some "opened" }))
    (fun _ _ => Except.ok ())

/-- An environment with byte-identical screenshots in cycles 0–2, a fresh
screenshot afterwards, and an oracle that reports `done` in cycle 3. -/
def envStaleThenDone : Env :=
  Env.mk (Except.ok ())
    (fun c _ => Except.ok (if c ≤ 2 then "A" else "D"))
    (fun c _ =>
      if c = 3 then Except.ok (Decision.mk "finished" "done" { summary := some "ok" })
      else Except.ok (Decision.mk "thinking" "wait" {}))
    (fun _ _ => Except.ok ())

/-- Screenshots alternating between two distinct strings. -/
def altShots (c : Nat) : String := if c % 2 = 0 then "A" else "B"

/-- An environment with per-cycle changing screenshots and an oracle that
never reports `done`/`error`. -/
def envAlt : Env :=
  Env.mk (Except.ok ()) (fun c _ => Except.ok (altShots c))
    (fun _ _ => Except.ok (Decision.mk "thinking" "wait" {})) (fun _ _ => Except.ok ())

/-- Screenshots repeating once at cycle 1, then changing every cycle. -/
def staleOnceShots (c : Nat) : String :=
  if c ≤ 1 then "A" else if c % 2 = 0 then "B" else "A"

/-- An environment repeating the cycle-0 screenshot exactly once and then
always changing, with an oracle that never reports `done`/`error`. -/
def envStaleOnce : Env :=
  Env.mk (Except.ok ()) (fun c _ => Except.ok (staleOnceShots c))
    (fun _ _ => Except.ok (Decision.mk "thinking" "wait" {})) (fun _ _ => Except.ok ())

/-- A `JSON.parse` oracle behaviour: every input parses to an object with
only a `thought` field (as `JSON.parse` does on the response below). -/
def jpThoughtOnly : String → Except String ParsedObj :=
  fun _ => Except.ok { thought := some "hi" }

/-- An oracle response that is valid JSON but carries no `action` field. -/
def respThoughtOnly : String := "\x7b\"thought\":\"hi\"\x7d"

/-- Random draws for `humanMove`, all within the source's bounds, with the
vertical control-point offsets at their extremes (`+50` and `+30`), zero
jitter, and 20 steps. -/
def mrHigh : MoveRand :=
  MoveRand.mk 20 (1/4) (1/4) (1/2) (3/4) 0 50 0 30 (fun _ => 0) (fun _ => 0)

/-- Random draws for `humanMove` within the source's bounds with all
offsets and jitter zero (used to instantiate the envelope theorem). -/
def mrCalm : MoveRand :=
  MoveRand.mk 20 (1/4) (1/4) (1/2) (3/4) 0 0 0 0 (fun _ => 0) (fun _ => 0)

/-- A `type` decision whose text holds a blocked keyword. -/
def decTypeSecret : Decision :=
  Decision.mk "filling the field" "type" { text := some "my password is hunter2" }

/-! ## Theorems -/

/-- If every attempt succeeds with the same value, the retry loop returns
that value. -/
theorem firstOk_ok {α : Type} (f : Nat → Except String α) (v : α)
    (h : ∀ a, f a = Except.ok v) (a n : Nat) : firstOk f a n = Except.ok v := by
  cases n <;> simp [firstOk, h]

/-- C1: the Safety Gate is never consulted by the agent loop: the
run executes (hands to `executeAction`, see the trace) the very `open_url`
decision that `checkAction` over the loaded policy and the active target
identity disallows, and completes without any gate evaluation — the loop
body contains no call into the vault at all. -/
theorem c1_gate_never_consulted :
    (checkAction DEFAULT_VAULT decOpenBank "").allowed = false ∧
    (runAgent envGateDemo initialAgentState "open the bank").map
        (fun o => (o.result, o.trace)) =
      Except.ok (RunResult.mk true "opened" 2, [(1, decOpenBank)]) := by
  exact ⟨by decide, rfl⟩

/-- C9: the screenshot-retry-exhaustion return path leaves the agent's
`running` flag set: after such a terminating `run`, `isRunning()` is still
`true` and a subsequent `run` on the same state is rejected with
"Agent already running". -/
theorem c9_running_flag_leaks :
    ∃ out, runAgent envShotFail initialAgentState "open notepad" = Except.ok out ∧
      out.result = RunResult.mk false "Screenshot failed: boom" 0 ∧
      isRunning out.state = true ∧
      runAgent envShotFail out.state "open notepad" = Except.error "Agent already running" := by
  refine ⟨LoopOut.mk (RunResult.mk false "Screenshot failed: boom" 0)
    (AgentState.mk true "open notepad" [] 0 "" 0) [], rfl, rfl, rfl, rfl⟩

/-- C3 counterexample: `run` does throw to its caller — a whitespace-only
goal and a call while a run is active both escape as thrown usage errors
instead of being returned as `RunResult`s. -/
theorem c3_counterexample :
    runAgent envWaitConst initialAgentState "   " = Except.error "No goal provided" ∧
    runAgent envWaitConst (AgentState.mk true "g" [] 0 "" 0) "goal" =
      Except.error "Agent already running" := by
  exact ⟨rfl, rfl⟩

/-- C3 amended: when the two documented preconditions hold (no run active,
goal non-empty after trimming), `run` returns a `RunResult` for every
behaviour of the perception provider, decision oracle and primitives —
every internal failure is caught and converted, none escapes. -/
theorem c3_no_throw (env : Env) (st0 : AgentState) (goal : String)
    (hrun : st0.running = false) (hgoal : jsTrimS goal ≠ "") :
    ∃ out, runAgent env st0 goal = Except.ok out := by
  unfold runAgent
  rw [if_neg (by simp [hrun]), if_neg hgoal]
  cases env.screenSize with
  | error e => exact ⟨_, rfl⟩
  | ok u => exact ⟨_, rfl⟩

/-- Witness for the amended C3 theorem at a concrete environment. -/
theorem c3_no_throw_witness :
    ∃ out, runAgent envWaitConst initialAgentState "open notepad" = Except.ok out :=
  c3_no_throw envWaitConst initialAgentState "open notepad" rfl (by decide)

/-- C10 counterexample: with the active-window identity empty,
`checkAction` still denies — a `type` action whose text holds a blocked
keyword is rejected, so "never denies any action when the identity is
empty" is false. -/
theorem c10_counterexample :
    (checkAction DEFAULT_VAULT decTypeSecret "").allowed = false := by decide

/-- C10 amended: empty inputs pass each individual check unblocked, and
with an empty active-window identity `checkAction` can deny only through
the URL check of an `open_url` action or the text check of a `type`
action: every other action kind is allowed, as is any action whose `url`
and `text` payloads are absent or empty (so an empty-text `type` action is
never subjected to the sensitive-text check). -/
theorem c10_empty_inputs :
    (∀ v : VaultConfig, checkApp v "" = CheckResult.mk false "") ∧
    (∀ v : VaultConfig, checkUrl v "" = CheckResult.mk false "") ∧
    (∀ v : VaultConfig, checkText v "" = CheckResult.mk false "") ∧
    (∀ (v : VaultConfig) (d : Decision), d.action ≠ "open_url" → d.action ≠ "type" →
      (checkAction v d "").allowed = true) ∧
    (∀ (v : VaultConfig) (d : Decision), strTruthy d.params.url = false →
      strTruthy d.params.text = false → (checkAction v d "").allowed = true) := by
  refine ⟨fun v => rfl, fun v => rfl, fun v => rfl, ?_, ?_⟩
  · intro v d h1 h2
    simp [checkAction, checkApp, h1, h2]
  · intro v d h1 h2
    simp [checkAction, checkApp, h1, h2]

/-- Witness for the amended C10 theorem: a plain `click` with empty
identity is allowed. -/
theorem c10_empty_inputs_witness :
    (checkAction DEFAULT_VAULT (Decision.mk "" "click" {}) "").allowed = true :=
  c10_empty_inputs.2.2.2.1 DEFAULT_VAULT (Decision.mk "" "click" {}) (by decide) (by decide)

/-! ### Glob matcher semantics (for C4) -/

/-- Membership in `cleanDrop`: exactly the suffixes obtained by removing a
prefix free of line terminators. -/
theorem mem_cleanDrop :
    ∀ (cs u : List Char), u ∈ cleanDrop cs ↔
      ∃ g, cs = g ++ u ∧ ∀ c ∈ g, isLineTerm c = false := by
  intro cs
  induction cs with
  | nil =>
    intro u
    simp only [cleanDrop, List.mem_singleton]
    constructor
    · rintro rfl
      exact ⟨[], rfl, by simp⟩
    · rintro ⟨g, hg, -⟩
      obtain ⟨rfl, rfl⟩ := List.append_eq_nil.mp hg.symm
      rfl
  | cons c t ih =>
    intro u
    constructor
    · intro h
      rw [cleanDrop] at h
      rcases List.mem_cons.mp h with rfl | h'
      · exact ⟨[], rfl, by simp⟩
      · cases hlt : isLineTerm c with
        | true => simp [hlt] at h'
        | false =>
          simp only [hlt, Bool.false_eq_true, if_false] at h'
          obtain ⟨g, hg, hcl⟩ := (ih u).mp h'
          refine ⟨c :: g, by rw [List.cons_append, hg], ?_⟩
          intro x hx
          rcases List.mem_cons.mp hx with rfl | hx'
          · exact hlt
          · exact hcl x hx'
    · rintro ⟨g, hg, hcl⟩
      rw [cleanDrop]
      cases g with
      | nil =>
        rw [List.nil_append] at hg
        subst hg
        exact List.mem_cons_self _ _
      | cons c' g' =>
        rw [List.cons_append] at hg
        injection hg with h1 h2
        subst h1
        have hc : isLineTerm c = false := hcl c (List.mem_cons_self _ _)
        have hu : u ∈ cleanDrop t :=
          (ih u).mpr ⟨g', h2, fun x hx => hcl x (List.mem_cons_of_mem _ hx)⟩
        rw [hc]
        exact List.mem_cons.mpr (Or.inr (by simpa using hu))

/-- The position-anchored matcher agrees with the declarative gap
semantics: the head segment starts here and each later segment follows
after a line-terminator-free gap. -/
theorem segsAt_iff :
    ∀ (segs : List (List Char)) (cs : List Char),
      segsAt segs cs = true ↔ SegsOccFrom segs cs := by
  intro segs
  induction segs with
  | nil => intro cs; simp [segsAt, SegsOccFrom]
  | cons s rest ih =>
    intro cs
    rw [segsAt, Bool.and_eq_true]
    constructor
    · rintro ⟨hp, hany⟩
      obtain ⟨tl, htl⟩ := List.isPrefixOf_iff_prefix.mp hp
      obtain ⟨u, humem, hu⟩ := List.any_eq_true.mp hany
      have hdrop : cs.drop s.length = tl := by
        rw [← htl, List.drop_left]
      rw [hdrop] at humem
      obtain ⟨g, hg, hcl⟩ := (mem_cleanDrop tl u).mp humem
      exact ⟨g, u, by rw [← htl, hg, List.append_assoc], hcl, (ih u).mp hu⟩
    · rintro ⟨g, suf, rfl, hcl, hocc⟩
      refine ⟨ List.isPrefixOf_iff_prefix.mpr ⟨g ++ suf, by rw [List.append_assoc]⟩, ?_⟩
      apply List.any_eq_true.mpr
      refine ⟨suf, ?_, (ih suf).mpr hocc⟩
      have hdrop : (s ++ g ++ suf).drop s.length = g ++ suf := by
        rw [List.append_assoc, List.drop_left]
      rw [hdrop]
      exact (mem_cleanDrop (g ++ suf) suf).mpr ⟨g, rfl, hcl⟩

/-- The embedded unanchored matcher agrees with the declarative
ordered-occurrence semantics (line-terminator-free gaps between
consecutive segments) of the compiled pattern. -/
theorem segsMatch_iff_SegsOcc :
    ∀ (segs : List (List Char)) (cs : List Char),
      segsMatch segs cs = true ↔ SegsOcc segs cs := by
  intro segs cs
  rw [segsMatch]
  constructor
  · intro h
    obtain ⟨u, humem, hu⟩ := List.any_eq_true.mp h
    obtain ⟨pre, hpre⟩ := (List.mem_tails u cs).mp humem
    exact ⟨pre, u, hpre.symm, (segsAt_iff _ _).mp hu⟩
  · rintro ⟨pre, suf, rfl, hocc⟩
    apply List.any_eq_true.mpr
    exact ⟨suf, (List.mem_tails suf (pre ++ suf)).mpr (List.suffix_append pre suf),
      (segsAt_iff _ _).mpr hocc⟩

/-- C4 counterexample: the compiled patterns are not anchored — the
default policy's `paypal.com` entry denies `https://www.paypal.com/pay`
(a substring match) although no blocked pattern matches that URL when
anchored at both ends, so "denied exactly when the whole pattern, anchored
at both ends, matches" is false. -/
theorem c4_counterexample :
    (checkUrl DEFAULT_VAULT "https://www.paypal.com/pay").blocked = true ∧
    DEFAULT_VAULT.blockedSites.any
      (fun p => anchoredGlobTest p "https://www.paypal.com/pay".toList) = false := by
  exact ⟨by decide, by decide⟩

/-- C4 amended: the glob compiler yields an unanchored, case-insensitive
match in which `*` is the only wildcard, compiled to `.*` with no `s`
flag, so a wildcard gap never crosses a line terminator: a non-empty URL
is denied by `checkUrl` exactly when, for some blocked pattern, the
pattern's literal segments (split at `*`) occur in order somewhere in the
URL, case insensitively, with the text between consecutive segments free
of line terminators; in particular `*.bank.*` matches
`secure.bank.example`, does not match `bankexample.com`, and `a*b` does
not match the two-line string `a\nb`. -/
theorem c4_unanchored_glob :
    (∀ (v : VaultConfig) (url : String),
      (checkUrl v url).blocked = true ↔
        (url ≠ "" ∧ ∃ p ∈ v.blockedSites,
          SegsOcc (splitStar (lowerL p.toList)) (lowerL url.toList))) ∧
    globTest "*.bank.*" "secure.bank.example".toList = true ∧
    globTest "*.bank.*" "bankexample.com".toList = false ∧
    globTest "a*b" "a\nb".toList = false := by
  refine ⟨?_, by decide, by decide, by decide⟩
  intro v url
  by_cases hu : url = ""
  · subst hu
    simp [checkUrl]
  · constructor
    · intro h
      rw [checkUrl, if_neg hu] at h
      by_cases hb : v.blockedSites.any (fun p => globTest p url.toList) = true
      · obtain ⟨p, hp, hg⟩ := List.any_eq_true.mp hb
        exact ⟨hu, p, hp, (segsMatch_iff_SegsOcc _ _).mp hg⟩
      · rw [if_neg hb] at h
        cases h
    · rintro ⟨-, p, hp, hocc⟩
      rw [checkUrl, if_neg hu]
      have hb : v.blockedSites.any (fun q => globTest q url.toList) = true :=
        List.any_eq_true.mpr ⟨p, hp, (segsMatch_iff_SegsOcc _ _).mpr hocc⟩
      rw [if_pos hb]

/-- Witness for the amended C4 theorem: the default policy denies the
HDFC banking URL, and its segments indeed occur in order. -/
theorem c4_unanchored_glob_witness :
    (checkUrl DEFAULT_VAULT "https://hdfcbank.com/login").blocked = true :=
  (c4_unanchored_glob.1 DEFAULT_VAULT "https://hdfcbank.com/login").mpr
    ⟨by decide, "hdfcbank.com", by decide, by
      have := (segsMatch_iff_SegsOcc (splitStar (lowerL "hdfcbank.com".toList))
        (lowerL "https://hdfcbank.com/login".toList)).mp (by decide)
      exact this⟩

/-- C5: `checkText` denies exactly on a configured (non-empty) blocked
keyword as a case-insensitive substring, a payment-card-like
4–4–4–(1-to-7) grouped digit pattern, or a 12-digit grouped
national-ID-like pattern; the card example is blocked and the
meeting-time example is not. -/
theorem c5_checkText_semantics :
    (∀ (v : VaultConfig) (text : String), "" ∉ v.blockedKeywords →
      ((checkText v text).blocked = true ↔
        (keywordHit v text = true ∨ cardMatch text.toList = true ∨
          aadhaarMatch text.toList = true))) ∧
    (checkText DEFAULT_VAULT "4111 1111 1111 1111").blocked = true ∧
    (checkText DEFAULT_VAULT "Meeting at 4:11 PM on 11/11").blocked = false := by
  refine ⟨?_, by decide, by decide⟩
  intro v text hkw
  by_cases ht : text = ""
  · subst ht
    have hK : keywordHit v "" = false := by
      rw [keywordHit, List.any_eq_false]
      intro k hk
      simp only [containsSub]
      intro hkE
      have h1 : lowerL k.toList = [] := List.isEmpty_iff.mp hkE
      have h2 : k.toList = [] := List.map_eq_nil_iff.mp h1
      have h3 : k = "" := String.ext h2
      exact hkw (h3 ▸ hk)
    have h0 : checkText v "" = CheckResult.mk false "" := rfl
    have hA : cardMatch ("" : String).toList = false := by decide
    have hB : aadhaarMatch ("" : String).toList = false := by decide
    rw [h0, hK, hA, hB]
    simp
  · rw [checkText, if_neg ht]
    cases hf : List.find? (fun k => containsSub (lowerL k.toList) (lowerL text.toList))
        v.blockedKeywords with
    | none =>
      have hK : keywordHit v text = false := by
        rw [keywordHit, List.any_eq_false]
        intro k hk
        exact fun hc => (List.find?_eq_none.mp hf k hk) hc
      rw [hK]
      cases hc : cardMatch text.toList with
      | true => simp [hc]
      | false =>
        cases ha : aadhaarMatch text.toList with
        | true => simp [hc, ha]
        | false => simp [hc, ha]
    | some k =>
      have hK : keywordHit v text = true := by
        rw [keywordHit]
        have hp : containsSub (lowerL k.toList) (lowerL text.toList) = true := by
          have := List.find?_some hf
          simpa using this
        exact List.any_eq_true.mpr ⟨k, List.mem_of_find?_eq_some hf, hp⟩
      simp [hK]

/-- Witness for the C5 theorem: the card example, decided through the
equivalence. -/
theorem c5_checkText_semantics_witness :
    (checkText DEFAULT_VAULT "send 4111-1111-1111-1111 now").blocked = true :=
  (c5_checkText_semantics.1 DEFAULT_VAULT "send 4111-1111-1111-1111 now"
    (by decide)).mpr (Or.inr (Or.inl (by decide)))

/-! ### Agent-loop cycle lemmas (for C2 and C6) -/

/-- A cycle whose screenshot succeeds with a fresh fingerprint and whose
oracle returns a non-terminal decision reaches the bottom of the loop
body: the step counter advances by one, the fingerprint is stored, the
repeat counter resets, and the decision is handed to `executeAction`
(appearing in the trace) whatever the execution outcome. -/
theorem runCycle_continue (env : Env) (st : AgentState) (tr : List (Nat × Decision))
    (A : String) (dec : Decision)
    (hshot : ∀ a, env.shot st.stepCount a = Except.ok A)
    (horacle : ∀ a, env.oracle st.stepCount a = Except.ok dec)
    (hdiff : fingerprint A ≠ st.lastScreenshotHash)
    (hd : dec.action ≠ "done") (he : dec.action ≠ "error") :
    ∃ stps, runCycle env st tr =
      Sum.inr (AgentState.mk st.running st.goal stps (st.stepCount + 1) (fingerprint A) 0,
        tr ++ [(st.stepCount + 1, dec)]) := by
  cases hE : execAttempts
      (fun a => executeAction (env.prim st.stepCount a) dec.action dec.params)
      0 MAX_ACTION_RETRIES with
  | none =>
    refine ⟨st.steps ++ [dec], ?_⟩
    simp [runCycle, firstOk_ok _ _ hshot, firstOk_ok _ _ horacle, hdiff, hd, he, hE]
  | some e =>
    refine ⟨annotateLast (st.steps ++ [dec]) e, ?_⟩
    simp [runCycle, firstOk_ok _ _ hshot, firstOk_ok _ _ horacle, hdiff, hd, he, hE]

/-- A cycle that sees the stored fingerprint again with fewer than two
prior repeats continues, incrementing the repeat counter. -/
theorem runCycle_repeat (env : Env) (st : AgentState) (tr : List (Nat × Decision))
    (A : String) (dec : Decision)
    (hshot : ∀ a, env.shot st.stepCount a = Except.ok A)
    (horacle : ∀ a, env.oracle st.stepCount a = Except.ok dec)
    (hsame : fingerprint A = st.lastScreenshotHash)
    (hcnt : st.sameScreenCount + 1 < 3)
    (hd : dec.action ≠ "done") (he : dec.action ≠ "error") :
    ∃ stps, runCycle env st tr =
      Sum.inr (AgentState.mk st.running st.goal stps (st.stepCount + 1) (fingerprint A)
        (st.sameScreenCount + 1), tr ++ [(st.stepCount + 1, dec)]) := by
  have hlt : ¬ (3 ≤ st.sameScreenCount + 1) := by omega
  cases hE : execAttempts
      (fun a => executeAction (env.prim st.stepCount a) dec.action dec.params)
      0 MAX_ACTION_RETRIES with
  | none =>
    refine ⟨st.steps ++ [dec], ?_⟩
    simp [runCycle, firstOk_ok _ _ hshot, firstOk_ok _ _ horacle, hsame, hlt, hd, he, hE]
  | some e =>
    refine ⟨annotateLast (st.steps ++ [dec]) e, ?_⟩
    simp [runCycle, firstOk_ok _ _ hshot, firstOk_ok _ _ horacle, hsame, hlt, hd, he, hE]

/-- A cycle that sees the stored fingerprint for the third consecutive
repeat returns the stuck error, clearing `running` and leaving the step
counter where it was. -/
theorem runCycle_stuck (env : Env) (st : AgentState) (tr : List (Nat × Decision))
    (A : String)
    (hshot : ∀ a, env.shot st.stepCount a = Except.ok A)
    (hsame : fingerprint A = st.lastScreenshotHash)
    (hcnt : 3 ≤ st.sameScreenCount + 1) :
    runCycle env st tr =
      Sum.inl (LoopOut.mk (RunResult.mk false stuckMsg st.stepCount)
        (AgentState.mk false st.goal st.steps st.stepCount st.lastScreenshotHash
          (st.sameScreenCount + 1)) tr) := by
  simp [runCycle, firstOk_ok _ _ hshot, hsame, hcnt]

/-- Unfolding one loop iteration that continues. -/
theorem loopGo_succ_inr (env : Env) (n : Nat) (st : AgentState)
    (tr : List (Nat × Decision)) (st' : AgentState) (tr' : List (Nat × Decision))
    (hrun : st.running = true) (hlt : st.stepCount < MAX_STEPS)
    (hcy : runCycle env st tr = Sum.inr (st', tr')) :
    loopGo env (n + 1) st tr = loopGo env n st' tr' := by
  simp [loopGo, hrun, hcy, Nat.not_le.mpr hlt]

/-- Unfolding one loop iteration that returns. -/
theorem loopGo_succ_inl (env : Env) (n : Nat) (st : AgentState)
    (tr : List (Nat × Decision)) (out : LoopOut)
    (hrun : st.running = true) (hlt : st.stepCount < MAX_STEPS)
    (hcy : runCycle env st tr = Sum.inl out) :
    loopGo env (n + 1) st tr = out := by
  simp [loopGo, hrun, hcy, Nat.not_le.mpr hlt]

/-- Budget invariant: from a running state whose remaining fuel matches
the remaining budget, with succeeding perception whose fingerprints keep
changing and an oracle that never terminates the run, the loop exits
through the budget check with exactly `MAX_STEPS` steps. -/
theorem loopGo_budget (env : Env) (shotF : Nat → String) (decF : Nat → Decision)
    (hshot : ∀ c a, env.shot c a = Except.ok (shotF c))
    (horacle : ∀ c a, env.oracle c a = Except.ok (decF c))
    (hd : ∀ c, (decF c).action ≠ "done") (he : ∀ c, (decF c).action ≠ "error") :
    ∀ (fuel : Nat) (st : AgentState) (tr : List (Nat × Decision)),
      st.running = true → fuel + st.stepCount = MAX_STEPS →
      fingerprint (shotF st.stepCount) ≠ st.lastScreenshotHash →
      (∀ c, st.stepCount ≤ c → fingerprint (shotF (c + 1)) ≠ fingerprint (shotF c)) →
      (loopGo env fuel st tr).result = RunResult.mk false budgetMsg MAX_STEPS := by
  intro fuel
  induction fuel with
  | zero =>
    intro st tr hrun hfuel hdiff hsteps
    have h25 : st.stepCount = MAX_STEPS := by omega
    simp [loopGo, postLoop, h25]
  | succ n ih =>
    intro st tr hrun hfuel hdiff hsteps
    have hlt : st.stepCount < MAX_STEPS := by omega
    obtain ⟨stps, hcy⟩ := runCycle_continue env st tr (shotF st.stepCount)
      (decF st.stepCount) (fun a => hshot st.stepCount a) (fun a => horacle st.stepCount a)
      hdiff (hd st.stepCount) (he st.stepCount)
    rw [loopGo_succ_inr env n st tr _ _ hrun hlt hcy]
    apply ih
    · exact hrun
    · show n + (st.stepCount + 1) = MAX_STEPS
      omega
    · show fingerprint (shotF (st.stepCount + 1)) ≠ fingerprint (shotF st.stepCount)
      exact hsteps st.stepCount (Nat.le_refl _)
    · intro c hc
      have hc' : st.stepCount + 1 ≤ c := hc
      exact hsteps c (by omega)

/-- Every cycle either returns with a step count at most one above the
current one, or continues with the step count incremented by one. -/
theorem runCycle_spec (env : Env) (st : AgentState) (tr : List (Nat × Decision)) :
    (∃ out, runCycle env st tr = Sum.inl out ∧ out.result.steps ≤ st.stepCount + 1) ∨
    (∃ st' tr', runCycle env st tr = Sum.inr (st', tr') ∧
      st'.stepCount = st.stepCount + 1) := by
  unfold runCycle
  cases hS : firstOk (env.shot st.stepCount) 0 MAX_SCREENSHOT_RETRIES with
  | error e =>
    simp only [hS]
    exact Or.inl ⟨_, rfl, by simp⟩
  | ok A =>
    simp only [hS]
    by_cases h1 : fingerprint A = st.lastScreenshotHash ∧ 3 ≤ st.sameScreenCount + 1
    · rw [if_pos h1]
      exact Or.inl ⟨_, rfl, by simp⟩
    · rw [if_neg h1]
      cases hO : firstOk (env.oracle st.stepCount) 0 MAX_AI_RETRIES with
      | error e =>
        simp only [hO]
        exact Or.inl ⟨_, rfl, by simp⟩
      | ok dec =>
        simp only [hO]
        by_cases h2 : dec.action = "done"
        · rw [if_pos h2]
          exact Or.inl ⟨_, rfl, by simp⟩
        · rw [if_neg h2]
          by_cases h3 : dec.action = "error"
          · rw [if_pos h3]
            exact Or.inl ⟨_, rfl, by simp⟩
          · rw [if_neg h3]
            cases hE : execAttempts
                (fun a => executeAction (env.prim st.stepCount a) dec.action dec.params)
                0 MAX_ACTION_RETRIES with
            | none =>
              simp only [hE]
              exact Or.inr ⟨_, _, rfl, by simp⟩
            | some e =>
              simp only [hE]
              exact Or.inr ⟨_, _, rfl, by simp⟩

/-- The loop's returned step count never exceeds the entry step count plus
the remaining fuel, for every environment behaviour. -/
theorem loopGo_steps_le (env : Env) :
    ∀ (fuel : Nat) (st : AgentState) (tr : List (Nat × Decision)),
      (loopGo env fuel st tr).result.steps ≤ st.stepCount + fuel := by
  intro fuel
  induction fuel with
  | zero =>
    intro st tr
    show (postLoop st tr).result.steps ≤ st.stepCount + 0
    unfold postLoop
    split_ifs <;> simp
  | succ n ih =>
    intro st tr
    show ((if !st.running || MAX_STEPS ≤ st.stepCount then postLoop st tr
      else
        match runCycle env st tr with
        | Sum.inl out => out
        | Sum.inr (st', tr') => loopGo env n st' tr').result.steps ≤ st.stepCount + (n + 1))
    split_ifs with hg
    · unfold postLoop
      split_ifs <;> simp
    · rcases runCycle_spec env st tr with ⟨out, hcy, hle⟩ | ⟨st', tr', hcy, hstep⟩
      · rw [hcy]
        exact le_trans hle (by omega)
      · rw [hcy]
        exact le_trans (ih st' tr') (by omega)

/-- Any `RunResult` actually returned by `run` has a step count at most
`MAX_STEPS`. -/
theorem runAgent_steps_le (env : Env) (st0 : AgentState) (goal : String) (out : LoopOut)
    (h : runAgent env st0 goal = Except.ok out) : out.result.steps ≤ MAX_STEPS := by
  unfold runAgent at h
  by_cases h1 : st0.running = true
  · rw [if_pos h1] at h
    cases h
  · rw [if_neg h1] at h
    by_cases h2 : jsTrimS goal = ""
    · rw [if_pos h2] at h
      cases h
    · rw [if_neg h2] at h
      cases hss : env.screenSize with
      | error e =>
        rw [hss] at h
        injection h with h'
        subst h'
        simp
      | ok u =>
        rw [hss] at h
        injection h with h'
        subst h'
        have := loopGo_steps_le env MAX_STEPS (AgentState.mk true (jsTrimS goal) [] 0 "" 0) []
        simpa using this

/-- C6 counterexample: an environment whose perception and execution
succeed on every attempt and whose oracle never returns `done`/`error`,
yet the run terminates at step 3 (stuck detection) with the stuck summary,
not at `maxSteps` with the budget summary. -/
theorem c6_counterexample :
    (runAgent envWaitConst initialAgentState "goal").map (fun o => o.result) =
      Except.ok (RunResult.mk false stuckMsg 3) ∧
    stuckMsg ≠ budgetMsg ∧ (3 : Nat) ≠ MAX_STEPS := by
  exact ⟨rfl, by decide, by decide⟩

/-- C6 amended: if additionally consecutive cycles always produce distinct
fingerprints (so stuck detection never fires), a run whose oracle never
returns `done`/`error` terminates at exactly `MAX_STEPS` steps with the
budget-exceeded summary; and on every run whatsoever the returned step
count is at most `MAX_STEPS`. -/
theorem c6_budget_termination :
    (∀ (env : Env) (shotF : Nat → String) (decF : Nat → Decision) (goal : String),
      (∀ c a, env.shot c a = Except.ok (shotF c)) →
      (∀ c a, env.oracle c a = Except.ok (decF c)) →
      (∀ c, (decF c).action ≠ "done") → (∀ c, (decF c).action ≠ "error") →
      (∀ c, fingerprint (shotF (c + 1)) ≠ fingerprint (shotF c)) →
      fingerprint (shotF 0) ≠ "" →
      env.screenSize = Except.ok () → jsTrimS goal ≠ "" →
      (runAgent env initialAgentState goal).map (fun o => o.result) =
        Except.ok (RunResult.mk false budgetMsg MAX_STEPS)) ∧
    (∀ (env : Env) (st0 : AgentState) (goal : String) (out : LoopOut),
      runAgent env st0 goal = Except.ok out → out.result.steps ≤ MAX_STEPS) := by
  constructor
  · intro env shotF decF goal hshot horacle hd he hsteps h0 hss hgoal
    unfold runAgent
    rw [if_neg (by simp [initialAgentState]), if_neg hgoal, hss]
    have hres := loopGo_budget env shotF decF hshot horacle hd he MAX_STEPS
      (AgentState.mk true (jsTrimS goal) [] 0 "" 0) [] rfl (by simp) h0
      (fun c _ => hsteps c)
    exact congrArg Except.ok hres
  · intro env st0 goal out h
    exact runAgent_steps_le env st0 goal out h

/-- Witness for the amended C6 theorem: alternating screenshots and a
never-terminating oracle exhaust the budget at exactly 25 steps. -/
theorem c6_budget_termination_witness :
    (runAgent envAlt initialAgentState "goal").map (fun o => o.result) =
      Except.ok (RunResult.mk false budgetMsg MAX_STEPS) := by
  apply c6_budget_termination.1 envAlt altShots
    (fun _ => Decision.mk "thinking" "wait" {}) "goal"
    (fun c a => rfl) (fun c a => rfl)
    (fun c => by
      show ("wait" : String) ≠ "done"
      decide)
    (fun c => by
      show ("wait" : String) ≠ "error"
      decide)
  · intro c
    by_cases hp : c % 2 = 0
    · have h1 : (c + 1) % 2 = 1 := by omega
      simp only [altShots, hp, h1, if_pos, if_neg]
      decide
    · have h1 : (c + 1) % 2 = 0 := by omega
      simp only [altShots, if_neg hp, if_pos h1]
      decide
  · decide
  · rfl
  · decide

/-- C2 counterexample: cycles 0, 1 and 2 of this run produce byte-identical
snapshots (hence byte-identical fingerprints), yet the run does not
terminate with a stuck `ERROR` — the next cycle's fingerprint differs, the
oracle reports `done`, and the run ends successfully at step 4. -/
theorem c2_counterexample :
    envStaleThenDone.shot 0 0 = Except.ok "A" ∧
    envStaleThenDone.shot 1 0 = Except.ok "A" ∧
    envStaleThenDone.shot 2 0 = Except.ok "A" ∧
    (runAgent envStaleThenDone initialAgentState "goal").map (fun o => o.result) =
      Except.ok (RunResult.mk true "ok" 4) := by
  exact ⟨rfl, rfl, rfl, rfl⟩

/-- C2 amended: the repeat counter trips only on the third consecutive
repeat, i.e. on the fourth byte-identical fingerprint in a row: with a
constant snapshot the run ends as a stuck `ERROR` with step count 3; and
when the fingerprint repeats once and then changes every cycle, the
counter is reset and the run never terminates for stuckness (it runs to
the step budget). -/
theorem c2_stuck_semantics :
    (∀ (env : Env) (A : String) (decF : Nat → Decision) (goal : String),
      (∀ c a, env.shot c a = Except.ok A) →
      (∀ c a, env.oracle c a = Except.ok (decF c)) →
      (∀ c, c < 3 → (decF c).action ≠ "done" ∧ (decF c).action ≠ "error") →
      fingerprint A ≠ "" → env.screenSize = Except.ok () → jsTrimS goal ≠ "" →
      (runAgent env initialAgentState goal).map (fun o => o.result) =
        Except.ok (RunResult.mk false stuckMsg 3)) ∧
    (∀ (env : Env) (shotF : Nat → String) (decF : Nat → Decision) (goal : String),
      (∀ c a, env.shot c a = Except.ok (shotF c)) →
      (∀ c a, env.oracle c a = Except.ok (decF c)) →
      (∀ c, (decF c).action ≠ "done") → (∀ c, (decF c).action ≠ "error") →
      fingerprint (shotF 1) = fingerprint (shotF 0) →
      (∀ c, 1 ≤ c → fingerprint (shotF (c + 1)) ≠ fingerprint (shotF c)) →
      fingerprint (shotF 0) ≠ "" → env.screenSize = Except.ok () → jsTrimS goal ≠ "" →
      (runAgent env initialAgentState goal).map (fun o => o.result) =
        Except.ok (RunResult.mk false budgetMsg MAX_STEPS)) := by
  constructor
  · intro env A decF goal hshot horacle hdec h0 hss hgoal
    have hres : (loopGo env MAX_STEPS (AgentState.mk true (jsTrimS goal) [] 0 "" 0) []).result
        = RunResult.mk false stuckMsg 3 := by
      obtain ⟨s0, h0c⟩ := runCycle_continue env
        (AgentState.mk true (jsTrimS goal) [] 0 "" 0) [] A (decF 0)
        (fun a => hshot 0 a) (fun a => horacle 0 a) h0
        (hdec 0 (by omega)).1 (hdec 0 (by omega)).2
      have h0c' : runCycle env (AgentState.mk true (jsTrimS goal) [] 0 "" 0) [] =
          Sum.inr (AgentState.mk true (jsTrimS goal) s0 1 (fingerprint A) 0,
            [(1, decF 0)]) := h0c
      rw [show MAX_STEPS = 24 + 1 from rfl,
        loopGo_succ_inr env 24 (AgentState.mk true (jsTrimS goal) [] 0 "" 0) []
          (AgentState.mk true (jsTrimS goal) s0 1 (fingerprint A) 0) [(1, decF 0)]
          rfl (by show (0 : Nat) < MAX_STEPS; decide) h0c']
      obtain ⟨s1, h1c⟩ := runCycle_repeat env
        (AgentState.mk true (jsTrimS goal) s0 1 (fingerprint A) 0) [(1, decF 0)]
        A (decF 1) (fun a => hshot 1 a) (fun a => horacle 1 a) rfl
        (by show (0 : Nat) + 1 < 3; decide)
        (hdec 1 (by omega)).1 (hdec 1 (by omega)).2
      have h1c' : runCycle env (AgentState.mk true (jsTrimS goal) s0 1 (fingerprint A) 0)
          [(1, decF 0)] =
          Sum.inr (AgentState.mk true (jsTrimS goal) s1 2 (fingerprint A) 1,
            [(1, decF 0), (2, decF 1)]) := h1c
      rw [show (24 : Nat) = 23 + 1 from rfl,
        loopGo_succ_inr env 23 (AgentState.mk true (jsTrimS goal) s0 1 (fingerprint A) 0)
          [(1, decF 0)] (AgentState.mk true (jsTrimS goal) s1 2 (fingerprint A) 1)
          [(1, decF 0), (2, decF 1)] rfl (by show (1 : Nat) < MAX_STEPS; decide) h1c']
      obtain ⟨s2, h2c⟩ := runCycle_repeat env
        (AgentState.mk true (jsTrimS goal) s1 2 (fingerprint A) 1)
        [(1, decF 0), (2, decF 1)] A (decF 2)
        (fun a => hshot 2 a) (fun a => horacle 2 a) rfl
        (by show (1 : Nat) + 1 < 3; decide)
        (hdec 2 (by omega)).1 (hdec 2 (by omega)).2
      have h2c' : runCycle env (AgentState.mk true (jsTrimS goal) s1 2 (fingerprint A) 1)
          [(1, decF 0), (2, decF 1)] =
          Sum.inr (AgentState.mk true (jsTrimS goal) s2 3 (fingerprint A) 2,
            [(1, decF 0), (2, decF 1), (3, decF 2)]) := h2c
      rw [show (23 : Nat) = 22 + 1 from rfl,
        loopGo_succ_inr env 22 (AgentState.mk true (jsTrimS goal) s1 2 (fingerprint A) 1)
          [(1, decF 0), (2, decF 1)] (AgentState.mk true (jsTrimS goal) s2 3 (fingerprint A) 2)
          [(1, decF 0), (2, decF 1), (3, decF 2)] rfl
          (by show (2 : Nat) < MAX_STEPS; decide) h2c']
      have h3c := runCycle_stuck env
        (AgentState.mk true (jsTrimS goal) s2 3 (fingerprint A) 2)
        [(1, decF 0), (2, decF 1), (3, decF 2)] A (fun a => hshot 3 a) rfl
        (by show (3 : Nat) ≤ 2 + 1; decide)
      have h3c' : runCycle env (AgentState.mk true (jsTrimS goal) s2 3 (fingerprint A) 2)
          [(1, decF 0), (2, decF 1), (3, decF 2)] =
          Sum.inl (LoopOut.mk (RunResult.mk false stuckMsg 3)
            (AgentState.mk false (jsTrimS goal) s2 3 (fingerprint A) 3)
            [(1, decF 0), (2, decF 1), (3, decF 2)]) := h3c
      rw [show (22 : Nat) = 21 + 1 from rfl,
        loopGo_succ_inl env 21 (AgentState.mk true (jsTrimS goal) s2 3 (fingerprint A) 2)
          [(1, decF 0), (2, decF 1), (3, decF 2)]
          (LoopOut.mk (RunResult.mk false stuckMsg 3)
            (AgentState.mk false (jsTrimS goal) s2 3 (fingerprint A) 3)
            [(1, decF 0), (2, decF 1), (3, decF 2)]) rfl
          (by show (3 : Nat) < MAX_STEPS; decide) h3c']
    unfold runAgent
    rw [if_neg (by simp [initialAgentState]), if_neg hgoal, hss]
    exact congrArg Except.ok hres
  · intro env shotF decF goal hshot horacle hd he h01 hne h0 hss hgoal
    have hres : (loopGo env MAX_STEPS (AgentState.mk true (jsTrimS goal) [] 0 "" 0) []).result
        = RunResult.mk false budgetMsg MAX_STEPS := by
      obtain ⟨s0, h0c⟩ := runCycle_continue env
        (AgentState.mk true (jsTrimS goal) [] 0 "" 0) [] (shotF 0) (decF 0)
        (fun a => hshot 0 a) (fun a => horacle 0 a) h0 (hd 0) (he 0)
      have h0c' : runCycle env (AgentState.mk true (jsTrimS goal) [] 0 "" 0) [] =
          Sum.inr (AgentState.mk true (jsTrimS goal) s0 1 (fingerprint (shotF 0)) 0,
            [(1, decF 0)]) := h0c
      rw [show MAX_STEPS = 24 + 1 from rfl,
        loopGo_succ_inr env 24 (AgentState.mk true (jsTrimS goal) [] 0 "" 0) []
          (AgentState.mk true (jsTrimS goal) s0 1 (fingerprint (shotF 0)) 0) [(1, decF 0)]
          rfl (by show (0 : Nat) < MAX_STEPS; decide) h0c']
      obtain ⟨s1, h1c⟩ := runCycle_repeat env
        (AgentState.mk true (jsTrimS goal) s0 1 (fingerprint (shotF 0)) 0) [(1, decF 0)]
        (shotF 1) (decF 1) (fun a => hshot 1 a) (fun a => horacle 1 a) h01
        (by show (0 : Nat) + 1 < 3; decide) (hd 1) (he 1)
      have h1c' : runCycle env
          (AgentState.mk true (jsTrimS goal) s0 1 (fingerprint (shotF 0)) 0)
          [(1, decF 0)] =
          Sum.inr (AgentState.mk true (jsTrimS goal) s1 2 (fingerprint (shotF 1)) 1,
            [(1, decF 0), (2, decF 1)]) := h1c
      rw [show (24 : Nat) = 23 + 1 from rfl,
        loopGo_succ_inr env 23
          (AgentState.mk true (jsTrimS goal) s0 1 (fingerprint (shotF 0)) 0)
          [(1, decF 0)] (AgentState.mk true (jsTrimS goal) s1 2 (fingerprint (shotF 1)) 1)
          [(1, decF 0), (2, decF 1)] rfl (by show (1 : Nat) < MAX_STEPS; decide) h1c']
      obtain ⟨s2, h2c⟩ := runCycle_continue env
        (AgentState.mk true (jsTrimS goal) s1 2 (fingerprint (shotF 1)) 1)
        [(1, decF 0), (2, decF 1)] (shotF 2) (decF 2)
        (fun a => hshot 2 a) (fun a => horacle 2 a) (hne 1 (Nat.le_refl 1)) (hd 2) (he 2)
      have h2c' : runCycle env
          (AgentState.mk true (jsTrimS goal) s1 2 (fingerprint (shotF 1)) 1)
          [(1, decF 0), (2, decF 1)] =
          Sum.inr (AgentState.mk true (jsTrimS goal) s2 3 (fingerprint (shotF 2)) 0,
            [(1, decF 0), (2, decF 1), (3, decF 2)]) := h2c
      rw [show (23 : Nat) = 22 + 1 from rfl,
        loopGo_succ_inr env 22
          (AgentState.mk true (jsTrimS goal) s1 2 (fingerprint (shotF 1)) 1)
          [(1, decF 0), (2, decF 1)]
          (AgentState.mk true (jsTrimS goal) s2 3 (fingerprint (shotF 2)) 0)
          [(1, decF 0), (2, decF 1), (3, decF 2)] rfl
          (by show (2 : Nat) < MAX_STEPS; decide) h2c']
      exact loopGo_budget env shotF decF hshot horacle hd he 22
        (AgentState.mk true (jsTrimS goal) s2 3 (fingerprint (shotF 2)) 0)
        [(1, decF 0), (2, decF 1), (3, decF 2)] rfl
        (by show (22 : Nat) + 3 = MAX_STEPS; decide)
        (hne 2 (by omega))
        (fun c hc => hne c (by
          have hc' : (3 : Nat) ≤ c := hc
          omega))
    unfold runAgent
    rw [if_neg (by simp [initialAgentState]), if_neg hgoal, hss]
    exact congrArg Except.ok hres

/-- Witness for the amended C2 theorem: a constant-screenshot run goes
stuck at step 3; a run whose fingerprint repeats exactly once then always
changes reaches the step budget instead. -/
theorem c2_stuck_semantics_witness :
    (runAgent envWaitConst initialAgentState "do things").map (fun o => o.result) =
      Except.ok (RunResult.mk false stuckMsg 3) ∧
    (runAgent envStaleOnce initialAgentState "do things").map (fun o => o.result) =
      Except.ok (RunResult.mk false budgetMsg MAX_STEPS) := by
  constructor
  · exact c2_stuck_semantics.1 envWaitConst "SHOT"
      (fun _ => Decision.mk "thinking" "wait" {}) "do things"
      (fun c a => rfl) (fun c a => rfl)
      (fun c hc => ⟨by show ("wait" : String) ≠ "done"; decide,
        by show ("wait" : String) ≠ "error"; decide⟩)
      (by decide) rfl (by decide)
  · apply c2_stuck_semantics.2 envStaleOnce staleOnceShots
      (fun _ => Decision.mk "thinking" "wait" {}) "do things"
      (fun c a => rfl) (fun c a => rfl)
      (fun c => by show ("wait" : String) ≠ "done"; decide)
      (fun c => by show ("wait" : String) ≠ "error"; decide)
    · decide
    · intro c hc
      rcases Nat.lt_or_ge c 2 with h2 | h2
      · have hc1 : c = 1 := by omega
        subst hc1
        decide
      · by_cases hp : c % 2 = 0
        · have h1 : ¬ ((c + 1) % 2 = 0) := by omega
          simp only [staleOnceShots, if_neg (show ¬ c ≤ 1 by omega),
            if_neg (show ¬ c + 1 ≤ 1 by omega), if_pos hp, if_neg h1]
          decide
        · have h1 : (c + 1) % 2 = 0 := by omega
          simp only [staleOnceShots, if_neg (show ¬ c ≤ 1 by omega),
            if_neg (show ¬ c + 1 ≤ 1 by omega), if_neg hp, if_pos h1]
          decide
    · decide
    · rfl
    · decide

/-- C7 counterexample: a response that is valid JSON but lacks the
`action` field is coerced into an `error` action whose message is the
fixed diagnostic — it does not carry the (truncated) raw response text,
refuting "the message carries the raw text truncated to 200 characters"
for every non-reducible response. -/
theorem c7_counterexample :
    parseAction jpThoughtOnly respThoughtOnly =
      Decision.mk "hi" "error"
        { message := some "AI response missing \"action\" field" } ∧
    containsSub ((stripFences respThoughtOnly).take 200)
      "AI response missing \"action\" field".toList = false := by
  exact ⟨by decide, by decide⟩

/-- C7 amended: the parser is total over every `JSON.parse` behaviour and
always yields a known action kind; a response with no JSON object or with
unparsable JSON yields an `error` action whose message embeds the stripped
raw text truncated to 200 characters, while a missing or unknown `action`
field yields an `error` action with a fixed diagnostic (naming the unknown
value); a reducible response yields the parsed fields with defaults for
missing `thought`/`params`. -/
theorem c7_response_coercion :
    ∀ (jp : String → Except String ParsedObj) (resp : String),
      (parseAction jp resp).action ∈ validActions ∧
      (extractJson (stripFences resp) = none →
        parseAction jp resp =
          Decision.mk "Failed to parse AI response" "error"
            { message := some ("AI returned non-JSON: " ++
                String.mk ((stripFences resp).take 200)) }) ∧
      (∀ j e, extractJson (stripFences resp) = some j →
        jp (String.mk j) = Except.error e →
        parseAction jp resp =
          Decision.mk "JSON parse error" "error"
            { message := some ("Failed to parse JSON: " ++ e ++ ". Raw: " ++
                String.mk ((stripFences resp).take 200)) }) ∧
      (∀ j po, extractJson (stripFences resp) = some j →
        jp (String.mk j) = Except.ok po → strTruthy po.action = false →
        parseAction jp resp =
          Decision.mk (strOrDefault po.thought "No action") "error"
            { message := some "AI response missing \"action\" field" }) ∧
      (∀ j po a, extractJson (stripFences resp) = some j →
        jp (String.mk j) = Except.ok po → po.action = some a → a ≠ "" →
        validActions.contains a = false →
        parseAction jp resp =
          Decision.mk (strOrDefault po.thought "") "error"
            { message := some ("Unknown action: " ++ a) }) ∧
      (∀ j po a, extractJson (stripFences resp) = some j →
        jp (String.mk j) = Except.ok po → po.action = some a → a ≠ "" →
        validActions.contains a = true →
        parseAction jp resp =
          Decision.mk (strOrDefault po.thought "") a (po.params.getD {})) := by
  intro jp resp
  refine ⟨?_, ?_, ?_, ?_, ?_, ?_⟩
  · unfold parseAction
    cases hE : extractJson (stripFences resp) with
    | none =>
      simp only [hE]
      show ("error" : String) ∈ validActions
      decide
    | some j =>
      simp only [hE]
      cases hJ : jp (String.mk j) with
      | error e =>
        simp only [hJ]
        show ("error" : String) ∈ validActions
        decide
      | ok po =>
        simp only [hJ]
        cases hA : strTruthy po.action with
        | false =>
          simp only [hA, Bool.not_false, if_true]
          show ("error" : String) ∈ validActions
          decide
        | true =>
          simp only [hA, Bool.not_true, if_false]
          cases hV : validActions.contains (po.action.getD "") with
          | false =>
            simp only [hV, Bool.not_false, if_true]
            show ("error" : String) ∈ validActions
            decide
          | true =>
            simp only [hV, Bool.not_true, if_false]
            show (po.action.getD "") ∈ validActions
            exact List.elem_iff.mp hV
  · intro hE
    unfold parseAction
    simp only [hE]
  · intro j e hE hJ
    unfold parseAction
    simp only [hE, hJ]
  · intro j po hE hJ hA
    unfold parseAction
    simp only [hE, hJ, hA, Bool.not_false, if_true]
  · intro j po a hE hJ hPA ha hV
    unfold parseAction
    simp [hE, hJ, hPA, strTruthy, ha, hV]
    intro hmem
    have hVt : validActions.contains a = true := List.elem_iff.mpr hmem
    rw [hV] at hVt
    simp at hVt
  · intro j po a hE hJ hPA ha hV
    unfold parseAction
    simp [hE, hJ, hPA, strTruthy, ha, hV]
    intro hmem
    exact absurd (List.elem_iff.mp hV) hmem

/-- Witness for the amended C7 theorem at a concrete reducible response. -/
theorem c7_response_coercion_witness :
    parseAction (fun _ => Except.ok (ParsedObj.mk (some "see screen") (some "wait") none))
      "\x7b\"action\":\"wait\"\x7d" =
      Decision.mk "see screen" "wait" {} := by
  apply (c7_response_coercion
    (fun _ => Except.ok (ParsedObj.mk (some "see screen") (some "wait") none))
    "\x7b\"action\":\"wait\"\x7d").2.2.2.2.2 "\x7b\"action\":\"wait\"\x7d".toList
    (ParsedObj.mk (some "see screen") (some "wait") none) "wait"
  · decide
  · rfl
  · rfl
  · decide
  · decide

/-! ### Motion-envelope lemmas (for C8) -/

/-- A cubic Bezier value at `t ∈ [0,1]` stays between any bounds enclosing
all four control values. -/
theorem bezierQ_bounds (lo hi t p0 p1 p2 p3 : ℚ)
    (ht0 : 0 ≤ t) (ht1 : t ≤ 1)
    (h0 : lo ≤ p0 ∧ p0 ≤ hi) (h1 : lo ≤ p1 ∧ p1 ≤ hi)
    (h2 : lo ≤ p2 ∧ p2 ≤ hi) (h3 : lo ≤ p3 ∧ p3 ≤ hi) :
    lo ≤ bezierQ t p0 p1 p2 p3 ∧ bezierQ t p0 p1 p2 p3 ≤ hi := by
  have h1t : (0 : ℚ) ≤ 1 - t := by linarith
  have hc0 : (0 : ℚ) ≤ (1 - t) ^ 3 := pow_nonneg h1t 3
  have hc1 : (0 : ℚ) ≤ 3 * (1 - t) ^ 2 * t :=
    mul_nonneg (mul_nonneg (by norm_num) (sq_nonneg _)) ht0
  have hc2 : (0 : ℚ) ≤ 3 * (1 - t) * t ^ 2 :=
    mul_nonneg (mul_nonneg (by norm_num) h1t) (sq_nonneg t)
  have hc3 : (0 : ℚ) ≤ t ^ 3 := pow_nonneg ht0 3
  have hlo : bezierQ t p0 p1 p2 p3 =
      lo + ((1 - t) ^ 3 * (p0 - lo) + 3 * (1 - t) ^ 2 * t * (p1 - lo) +
        3 * (1 - t) * t ^ 2 * (p2 - lo) + t ^ 3 * (p3 - lo)) := by
    rw [bezierQ]
    ring
  have hup : bezierQ t p0 p1 p2 p3 =
      hi - ((1 - t) ^ 3 * (hi - p0) + 3 * (1 - t) ^ 2 * t * (hi - p1) +
        3 * (1 - t) * t ^ 2 * (hi - p2) + t ^ 3 * (hi - p3)) := by
    rw [bezierQ]
    ring
  constructor
  · rw [hlo]
    linarith [mul_nonneg hc0 (sub_nonneg.mpr h0.1), mul_nonneg hc1 (sub_nonneg.mpr h1.1),
      mul_nonneg hc2 (sub_nonneg.mpr h2.1), mul_nonneg hc3 (sub_nonneg.mpr h3.1)]
  · rw [hup]
    linarith [mul_nonneg hc0 (sub_nonneg.mpr h0.2), mul_nonneg hc1 (sub_nonneg.mpr h1.2),
      mul_nonneg hc2 (sub_nonneg.mpr h2.2), mul_nonneg hc3 (sub_nonneg.mpr h3.2)]

/-- A fractional interpolation between two endpoints stays in their
bounding interval. -/
theorem interp_bounds (a b f : ℚ) (hf0 : 0 ≤ f) (hf1 : f ≤ 1) :
    min a b ≤ a + (b - a) * f ∧ a + (b - a) * f ≤ max a b := by
  rcases le_total a b with h | h
  · rw [min_eq_left h, max_eq_right h]
    constructor
    · nlinarith [mul_nonneg (sub_nonneg.mpr h) hf0]
    · nlinarith [mul_nonneg (sub_nonneg.mpr h) (sub_nonneg.mpr hf1)]
  · rw [min_eq_right h, max_eq_left h]
    constructor
    · nlinarith [mul_nonneg (sub_nonneg.mpr h) (sub_nonneg.mpr hf1)]
    · nlinarith [mul_nonneg (sub_nonneg.mpr h) hf0]

/-- One axis of a jittered Bezier sample whose control points are
endpoint interpolations offset by at most 50, at `t ∈ [0,1]`, stays within
the endpoint interval padded by 52. -/
theorem axis_bound (a b f1 f2 o1 o2 j t : ℚ)
    (hf1 : 0 ≤ f1 ∧ f1 ≤ 1) (hf2 : 0 ≤ f2 ∧ f2 ≤ 1)
    (ho1 : |o1| ≤ 50) (ho2 : |o2| ≤ 50) (hjb : |j| ≤ 2)
    (ht0 : 0 ≤ t) (ht1 : t ≤ 1) :
    min a b - 52 ≤ bezierQ t a (a + (b - a) * f1 + o1) (a + (b - a) * f2 + o2) b + j ∧
    bezierQ t a (a + (b - a) * f1 + o1) (a + (b - a) * f2 + o2) b + j ≤ max a b + 52 := by
  have h1 := interp_bounds a b f1 hf1.1 hf1.2
  have h2 := interp_bounds a b f2 hf2.1 hf2.2
  have ho1' := abs_le.mp ho1
  have ho2' := abs_le.mp ho2
  have hj' := abs_le.mp hjb
  have hminmax : min a b ≤ max a b := min_le_of_left_le (le_max_left a b)
  have hb := bezierQ_bounds (min a b - 50) (max a b + 50) t a
    (a + (b - a) * f1 + o1) (a + (b - a) * f2 + o2) b ht0 ht1
    ⟨by have := min_le_left a b; linarith, by have := le_max_left a b; linarith⟩
    ⟨by linarith [h1.1], by linarith [h1.2]⟩
    ⟨by linarith [h2.1], by linarith [h2.2]⟩
    ⟨by have := min_le_right a b; linarith, by have := le_max_right a b; linarith⟩
  constructor
  · linarith [hb.1]
  · linarith [hb.2]

/-- C8 counterexample: all the random draws of `mrHigh` lie within the
source's documented bounds, yet the sample at `t = 1/2` of a move from
`(0,0)` to `(10,0)` has `y = 30`, far outside the start–target bounding
box padded by the ±2 jitter — the Bezier control-point offsets (±50/±30)
push intermediate samples out of that box. -/
theorem c8_counterexample :
    (20 ≤ mrHigh.msteps ∧ mrHigh.msteps ≤ 35) ∧
    (1/5 ≤ mrHigh.f1x ∧ mrHigh.f1x ≤ 1/2) ∧
    (1/10 ≤ mrHigh.f1y ∧ mrHigh.f1y ≤ 2/5) ∧
    (1/2 ≤ mrHigh.f2x ∧ mrHigh.f2x ≤ 4/5) ∧
    (3/5 ≤ mrHigh.f2y ∧ mrHigh.f2y ≤ 9/10) ∧
    |mrHigh.o1x| ≤ 50 ∧ |mrHigh.o1y| ≤ 50 ∧ |mrHigh.o2x| ≤ 30 ∧ |mrHigh.o2y| ≤ 30 ∧
    (∀ i, mrHigh.jx i = 0 ∧ mrHigh.jy i = 0) ∧
    ∃ p ∈ humanMoveSamples mrHigh 0 0 10 0, ¬ sampleInPaddedBox 0 0 10 0 2 p := by
  refine ⟨⟨by norm_num [mrHigh], by norm_num [mrHigh]⟩,
    ⟨by norm_num [mrHigh], by norm_num [mrHigh]⟩,
    ⟨by norm_num [mrHigh], by norm_num [mrHigh]⟩,
    ⟨by norm_num [mrHigh], by norm_num [mrHigh]⟩,
    ⟨by norm_num [mrHigh], by norm_num [mrHigh]⟩,
    by norm_num [mrHigh], by norm_num [mrHigh], by norm_num [mrHigh], by norm_num [mrHigh],
    fun i => ⟨by norm_num [mrHigh], by norm_num [mrHigh]⟩, ?_⟩
  refine ⟨((65 : ℚ)/16, 30), ?_, ?_⟩
  · simp only [humanMoveSamples]
    apply List.mem_append_left
    apply List.mem_map.mpr
    refine ⟨10, ?_, ?_⟩
    · decide
    · norm_num [mrHigh, bezierQ, Prod.mk.injEq]
  · intro hbox
    obtain ⟨h1, h2, h3, h4⟩ := hbox
    norm_num at h4

/-- C8 amended: for every draw of the bounded random values, the final
emitted sample is exactly the target, and every sample lies within the
start–target bounding box padded by 52 px (the 50 px control-point offset
bound plus the 2 px jitter bound) — not by the 2 px jitter alone. -/
theorem c8_motion_envelope (r : MoveRand) (fromX fromY toX toY : ℚ)
    (hsteps : 20 ≤ r.msteps ∧ r.msteps ≤ 35)
    (hf1x : 1/5 ≤ r.f1x ∧ r.f1x ≤ 1/2) (hf1y : 1/10 ≤ r.f1y ∧ r.f1y ≤ 2/5)
    (hf2x : 1/2 ≤ r.f2x ∧ r.f2x ≤ 4/5) (hf2y : 3/5 ≤ r.f2y ∧ r.f2y ≤ 9/10)
    (ho1x : |r.o1x| ≤ 50) (ho1y : |r.o1y| ≤ 50)
    (ho2x : |r.o2x| ≤ 30) (ho2y : |r.o2y| ≤ 30)
    (hj : ∀ i, |r.jx i| ≤ 2 ∧ |r.jy i| ≤ 2) :
    (∀ p ∈ humanMoveSamples r fromX fromY toX toY,
      sampleInPaddedBox fromX fromY toX toY 52 p) ∧
    (humanMoveSamples r fromX fromY toX toY).getLast? = some (toX, toY) := by
  constructor
  · intro p hp
    simp only [humanMoveSamples, List.mem_append, List.mem_map, List.mem_range,
      List.mem_singleton] at hp
    rcases hp with ⟨i, hi, rfl⟩ | rfl
    · have hms : (0 : ℚ) < (r.msteps : ℚ) := by
        have h20 : (20 : ℚ) ≤ (r.msteps : ℚ) := by exact_mod_cast hsteps.1
        linarith
      have ht0 : 0 ≤ (i : ℚ) / (r.msteps : ℚ) := div_nonneg (by positivity) (le_of_lt hms)
      have ht1 : (i : ℚ) / (r.msteps : ℚ) ≤ 1 := by
        rw [div_le_one hms]
        exact_mod_cast Nat.le_of_lt_succ hi
      have hx := axis_bound fromX toX r.f1x r.f2x r.o1x r.o2x (r.jx i)
        ((i : ℚ) / (r.msteps : ℚ))
        ⟨by linarith [hf1x.1], by linarith [hf1x.2]⟩
        ⟨by linarith [hf2x.1], by linarith [hf2x.2]⟩
        ho1x (le_trans ho2x (by norm_num)) (hj i).1 ht0 ht1
      have hy := axis_bound fromY toY r.f1y r.f2y r.o1y r.o2y (r.jy i)
        ((i : ℚ) / (r.msteps : ℚ))
        ⟨by linarith [hf1y.1], by linarith [hf1y.2]⟩
        ⟨by linarith [hf2y.1], by linarith [hf2y.2]⟩
        ho1y (le_trans ho2y (by norm_num)) (hj i).2 ht0 ht1
      exact ⟨hx.1, hx.2, hy.1, hy.2⟩
    · refine ⟨?_, ?_, ?_, ?_⟩
      · have := min_le_right fromX toX
        linarith
      · have := le_max_right fromX toX
        linarith
      · have := min_le_right fromY toY
        linarith
      · have := le_max_right fromY toY
        linarith
  · simp only [humanMoveSamples]
    exact List.getLast?_concat _

/-- Witness for the amended C8 theorem at an in-bounds concrete draw. -/
theorem c8_motion_envelope_witness :
    (∀ p ∈ humanMoveSamples mrCalm 0 0 10 0, sampleInPaddedBox 0 0 10 0 52 p) ∧
    (humanMoveSamples mrCalm 0 0 10 0).getLast? = some (10, 0) :=
  c8_motion_envelope mrCalm 0 0 10 0
    ⟨by norm_num [mrCalm], by norm_num [mrCalm]⟩
    ⟨by norm_num [mrCalm], by norm_num [mrCalm]⟩
    ⟨by norm_num [mrCalm], by norm_num [mrCalm]⟩
    ⟨by norm_num [mrCalm], by norm_num [mrCalm]⟩
    ⟨by norm_num [mrCalm], by norm_num [mrCalm]⟩
    (by norm_num [mrCalm]) (by norm_num [mrCalm]) (by norm_num [mrCalm])
    (by norm_num [mrCalm])
    (fun i => ⟨by norm_num [mrCalm], by norm_num [mrCalm]⟩)

end Klaw
